import Mathlib

/-!
Verification of the SOR worker (worker/src/index.ts and
worker/src/system-migrations.ts): a REST layer exposing SQLite-backed
Durable Objects, each holding one logical database with a tracked
migration ledger, plus a reserved registry database cataloguing the
user-visible databases.

The embedding below translates the worker source into Lean.  The
underlying SQLite engine of a Durable Object is external to the
repository; it is modelled here by a small dynamically-typed relational
engine (`EngineState`, `execStmt`) covering exactly the statement forms
the worker issues plus arbitrary caller-supplied scripts, with the
engine behaviours the spec relies on: statements fail with an error
message instead of crashing, a failing statement has no effect, a
multi-statement script keeps the effects of the statements before the
failing one, and `transactionSync` rolls everything back on failure.
`CURRENT_TIMESTAMP` is modelled by a logical clock that increases at
every row insertion, so ordering by the timestamp column is ordering by
application time.  The engine parser is likewise external, so a SQL
string travels together with the statement sequence the engine parses
it to; positional parameters are already bound inside that sequence
(the binding API never interpolates them into the text).
-/

/-- Is `p` a prefix of the character list (JS String.prototype.startsWith,
written over the character list so that it computes by reduction). -/
def listIsPre : List Char → List Char → Bool
  | _, [] => true
  | [], _ :: _ => false
  | c :: cs, p :: ps => c == p && listIsPre cs ps

def strStartsWith (s p : String) : Bool := listIsPre s.data p.data

/-- A dynamically typed SQL value (null, integer, or text). -/
inductive Value where
  | vnull
  | vint (i : Int)
  | vtext (s : String)
deriving Repr, DecidableEq

/-- A row maps column names to values. -/
abbrev Row := List (String × Value)

/-- Default policy of a column: none (NULL) or CURRENT_TIMESTAMP. -/
inductive ColDefault where
  | dnone
  | dtimestamp
deriving Repr, DecidableEq

/-- Declared column: name, default policy, primary-key flag. -/
structure ColSpec where
  cname : String
  dflt : ColDefault
  pk : Bool
deriving Repr, DecidableEq

/-- A table: its declared columns and its rows in insertion order. -/
structure Table where
  cols : List ColSpec
  rows : List Row
deriving Repr, DecidableEq

/-- The storage of one Durable Object: its tables in creation order and
the logical clock used for CURRENT_TIMESTAMP defaults. -/
structure EngineState where
  tables : List (String × Table)
  clock : Nat
deriving Repr, DecidableEq

def emptyEngine : EngineState := ⟨[], 0⟩

/-- Replace the binding of a key in an association list, appending it
when absent. -/
def setAssoc {β : Type} : List (String × β) → String → β → List (String × β)
  | [], k, v => [(k, v)]
  | (k', v') :: rest, k, v =>
    if k' = k then (k', v) :: rest else (k', v') :: setAssoc rest k v

def lookupTable (s : EngineState) (t : String) : Option Table :=
  s.tables.lookup t

def setTable (s : EngineState) (t : String) (tb : Table) : EngineState :=
  { s with tables := setAssoc s.tables t tb }

/-- The statement forms of the modelled engine. `select` carries the
projected columns, the table, an optional equality WHERE filter and an
optional ORDER BY column. -/
inductive Stmt where
  | createTab (ifAbsent : Bool) (t : String) (cols : List ColSpec)
  | dropTab (t : String)
  | insert (t : String) (cols : List String) (vals : List Value)
  | delete (t : String) (whereCol : String) (v : Value)
  | select (cols : List String) (t : String) (wh : Option (String × Value))
      (orderBy : Option String)
deriving Repr, DecidableEq

/-- Result of one engine call, mirroring the Durable Object cursor. -/
structure QueryResult where
  rows : List Row
  columns : List String
  rowsRead : Nat
  rowsWritten : Nat
deriving Repr, DecidableEq

def emptyQR : QueryResult := ⟨[], [], 0, 0⟩

/-- SQLite type ordering on values: NULL before integers before text. -/
def vle : Value → Value → Bool
  | .vnull, _ => true
  | .vint _, .vnull => false
  | .vint i, .vint j => decide (i ≤ j)
  | .vint _, .vtext _ => true
  | .vtext _, .vnull => false
  | .vtext _, .vint _ => false
  | .vtext a, .vtext b => decide (a ≤ b)

/-- Ordering of rows by the value of one column. -/
def rowLe (ob : String) (a b : Row) : Prop :=
  vle ((List.lookup ob a).getD .vnull) ((List.lookup ob b).getD .vnull) = true

instance (ob : String) : DecidableRel (rowLe ob) := by
  intro a b
  unfold rowLe
  infer_instance

/-- The cell an INSERT stores for one declared column: the supplied
value when present, else the default (timestamp clock or NULL). -/
def mkCell (cols : List String) (vals : List Value) (clk : Nat) (c : ColSpec) :
    String × Value :=
  match List.lookup c.cname (cols.zip vals) with
  | some v => (c.cname, v)
  | none =>
    match c.dflt with
    | .dtimestamp => (c.cname, .vint (Int.ofNat clk))
    | .dnone => (c.cname, .vnull)

/-- Build the row an INSERT stores, one cell per declared column. -/
def mkRow (specs : List ColSpec) (cols : List String) (vals : List Value)
    (clk : Nat) : Row :=
  specs.map (mkCell cols vals clk)

/-- A primary-key conflict: some pk column of the table already holds
the inserted row's value in an existing row. -/
def rowConflict (specs : List ColSpec) (rows : List Row) (row : Row) : Bool :=
  specs.any (fun c =>
    c.pk && rows.any (fun r =>
      List.lookup c.cname r = List.lookup c.cname row))

def colNames (specs : List ColSpec) : List String :=
  specs.map ColSpec.cname

/-- Project a row onto the requested columns. -/
def projRow (cols : List String) (r : Row) : Row :=
  cols.map (fun c => (c, (List.lookup c r).getD .vnull))

/-- Execute one statement.  A failing statement returns the engine's
error message and has no effect (per-statement atomicity of SQLite). -/
def execStmt (s : EngineState) : Stmt → Except String (EngineState × QueryResult)
  | .createTab ifAbsent t cols =>
    match lookupTable s t with
    | some _ =>
      if ifAbsent then .ok (s, emptyQR)
      else .error ("table " ++ t ++ " already exists")
    | none => .ok ({ s with tables := s.tables ++ [(t, ⟨cols, []⟩)] }, emptyQR)
  | .dropTab t =>
    match lookupTable s t with
    | none => .error ("no such table: " ++ t)
    | some _ =>
      .ok ({ s with tables := s.tables.filter (fun p => p.1 ≠ t) }, emptyQR)
  | .insert t cols vals =>
    match lookupTable s t with
    | none => .error ("no such table: " ++ t)
    | some tb =>
      if cols.all (fun c => decide (c ∈ colNames tb.cols)) then
        let row := mkRow tb.cols cols vals s.clock
        if rowConflict tb.cols tb.rows row then
          .error ("UNIQUE constraint failed: " ++ t)
        else
          .ok (setTable { s with clock := s.clock + 1 } t
                { tb with rows := tb.rows ++ [row] },
               { emptyQR with rowsWritten := 1 })
      else .error ("table " ++ t ++ " has no such column")
  | .delete t wc v =>
    match lookupTable s t with
    | none => .error ("no such table: " ++ t)
    | some tb =>
      let kept := tb.rows.filter (fun r => ¬ (List.lookup wc r = some v))
      .ok (setTable s t { tb with rows := kept },
           { emptyQR with rowsWritten := tb.rows.length - kept.length })
  | .select cols t wh ob =>
    match lookupTable s t with
    | none => .error ("no such table: " ++ t)
    | some tb =>
      let avail := colNames tb.cols
      let wanted := cols ++ (match wh with | some (c, _) => [c] | none => []) ++
        (match ob with | some c => [c] | none => [])
      if wanted.all (fun c => decide (c ∈ avail)) then
        let filtered :=
          match wh with
          | some (c, v) => tb.rows.filter (fun r => List.lookup c r = some v)
          | none => tb.rows
        let ordered :=
          match ob with
          | some c => List.insertionSort (rowLe c) filtered
          | none => filtered
        .ok (s, ⟨ordered.map (projRow cols), cols, ordered.length, 0⟩)
      else .error ("no such column: " ++ t)

/-- Execute a semicolon-separated script.  On failure the effects of the
statements before the failing one are kept (no implicit transaction);
the result of the last statement is returned on success. -/
def execScript : EngineState → List Stmt → EngineState × Except String QueryResult
  | s, [] => (s, .ok emptyQR)
  | s, st :: rest =>
    match execStmt s st with
    | .error e => (s, .error e)
    | .ok (s', q) =>
      match rest with
      | [] => (s', .ok q)
      | _ => execScript s' rest

/-- Durable Object storage.transactionSync: run the callback; on an
exception roll the state back completely and rethrow the message. -/
def transactionSync (s : EngineState)
    (f : EngineState → Except String EngineState) : EngineState × Option String :=
  match f s with
  | .ok s' => (s', none)
  | .error e => (s, some e)

/-! ## The Db Durable Object (worker/src/index.ts, class Db) -/

/-- Columns of the migrations ledger `_sor_migrations`:
name TEXT PRIMARY KEY, sql TEXT NOT NULL, applied_at TEXT DEFAULT CURRENT_TIMESTAMP. -/
def ledgerCols : List ColSpec :=
  [⟨"name", .dnone, true⟩, ⟨"sql", .dnone, false⟩, ⟨"applied_at", .dtimestamp, false⟩]

/-- Db.ensureMigrationsTable: CREATE TABLE IF NOT EXISTS _sor_migrations. -/
def ensureMigrationsTable (s : EngineState) : EngineState :=
  match execStmt s (.createTab true "_sor_migrations" ledgerCols) with
  | .ok (s', _) => s'
  | .error _ => s

/-- Structured result of Db.sql: either the cursor data or the caught
engine error message. -/
inductive SqlOut where
  | ok (q : QueryResult)
  | err (msg : String)
deriving Repr, DecidableEq

/-- Db.sql(query, params): run the script; every engine failure is
caught and returned as a structured `{error}` value. The storage keeps
the effects of the statements that ran before a failure (no transaction
here). -/
def Db.sql (script : List Stmt) (s : EngineState) : EngineState × SqlOut :=
  match execScript s script with
  | (s', .ok q) => (s', .ok q)
  | (s', .error e) => (s', .err e)

/-- Result value of Db.migrate: `{ok, error?, name}`. -/
structure MigrateRes where
  ok : Bool
  error : Option String
  name : String
deriving Repr, DecidableEq

/-- The SELECT probing the ledger for an already-applied migration. -/
def selectLedgerName (n : String) : Stmt :=
  .select ["name"] "_sor_migrations" (some ("name", .vtext n)) none

/-- The ledger INSERT recording an applied migration. -/
def insertLedger (n t : String) : Stmt :=
  .insert "_sor_migrations" ["name", "sql"] [.vtext n, .vtext t]

/-- Body of the transaction in Db.migrate: run the migration SQL, then
insert the ledger row; any failure aborts the transaction. -/
def migrationTxnBody (n t : String) (script : List Stmt)
    (s : EngineState) : Except String EngineState :=
  match execScript s script with
  | (_, .error e) => .error e
  | (s1, .ok _) =>
    match execStmt s1 (insertLedger n t) with
    | .error e => .error e
    | .ok (s2, _) => .ok s2

/-- Db.migrate(name, sql): ensure the ledger, probe for the name, then
run the SQL and the ledger insert inside one transaction. `script` is
the engine parse of the SQL text `t`. The `Except.error` outcome is an
exception escaping migrate (only the ledger probe can throw, when a
preexisting `_sor_migrations` table lacks the probed column); the
caught transaction failure is the `.ok` outcome with `ok := false`. -/
def Db.migrate (n t : String) (script : List Stmt)
    (s : EngineState) : EngineState × Except String MigrateRes :=
  let s1 := ensureMigrationsTable s
  match execStmt s1 (selectLedgerName n) with
  | .error e => (s1, .error e)
  | .ok (s2, q) =>
    if q.rows.length > 0 then
      (s2, .ok ⟨false, some "Migration already applied", n⟩)
    else
      match transactionSync s2 (migrationTxnBody n t script) with
      | (s3, none) => (s3, .ok ⟨true, none, n⟩)
      | (s3, some e) => (s3, .ok ⟨false, some e, n⟩)

/-- Db.listMigrations: ensure the ledger, then
SELECT name, applied_at FROM _sor_migrations ORDER BY applied_at.
An `Except.error` outcome is an exception escaping the method. -/
def Db.listMigrations (s : EngineState) : EngineState × Except String (List Row) :=
  let s1 := ensureMigrationsTable s
  match execStmt s1 (.select ["name", "applied_at"] "_sor_migrations" none
      (some "applied_at")) with
  | .error e => (s1, .error e)
  | .ok (s2, q) => (s2, .ok q.rows)

/-- Db.getSchema: every table except sqlite internals and the ledger,
ordered by name, with its column descriptors (PRAGMA table_info). -/
def Db.getSchema (s : EngineState) : List (String × List ColSpec) :=
  let names := (s.tables.map Prod.fst).filter
    (fun n => ¬ (strStartsWith n "sqlite_") ∧ n ≠ "_sor_migrations")
  (List.insertionSort (fun a b => a ≤ b) names).map
    (fun n => (n, ((lookupTable s n).map Table.cols).getD []))

/-! ## System migrations (worker/src/system-migrations.ts) -/

/-- One entry of SYSTEM_MIGRATIONS: its name, its SQL text, and the
engine parse of that text. -/
structure SysMigration where
  name : String
  text : String
  script : List Stmt
deriving Repr, DecidableEq

/-- Columns of the registry catalog table `dbs`:
name TEXT PRIMARY KEY, description TEXT, created_at TEXT DEFAULT CURRENT_TIMESTAMP. -/
def dbsCols : List ColSpec :=
  [⟨"name", .dnone, true⟩, ⟨"description", .dnone, false⟩, ⟨"created_at", .dtimestamp, false⟩]

/-- The SQL text of the single system migration. -/
def sysMigText : String :=
  "CREATE TABLE IF NOT EXISTS dbs (name TEXT PRIMARY KEY, description TEXT, created_at TEXT DEFAULT CURRENT_TIMESTAMP)"

def SYSTEM_MIGRATIONS : List SysMigration :=
  [⟨"001_create_dbs_table", sysMigText, [.createTab true "dbs" dbsCols]⟩]

/-! ## The Worker (worker/src/index.ts, default fetch) -/

def REGISTRY_DB : String := "_sor_registry"

/-- Applies each system migration in order through Db.migrate; a
non-throwing failure is only logged (console.error) and skipped, a
thrown exception aborts the loop and propagates (second component). -/
def runSystemMigrations : EngineState → List SysMigration → EngineState × Option String
  | s, [] => (s, none)
  | s, m :: rest =>
    match Db.migrate m.name m.text m.script s with
    | (s', .ok _) => runSystemMigrations s' rest
    | (s', .error e) => (s', some e)

/-- ensureSystemMigrations (and ensureRegistry): bootstrap the registry
handle by applying SYSTEM_MIGRATIONS via the ordinary migrate protocol. -/
def ensureSystemMigrations (s : EngineState) : EngineState × Option String :=
  runSystemMigrations s SYSTEM_MIGRATIONS

/-- The directory of Durable Objects: one engine state per logical
name (env.DB.idFromName / env.DB.get), empty storage before first use. -/
structure World where
  dbs : List (String × EngineState)
deriving Repr, DecidableEq

def emptyWorld : World := ⟨[]⟩

def World.get (w : World) (n : String) : EngineState :=
  (w.dbs.lookup n).getD emptyEngine

def World.set (w : World) (n : String) (s : EngineState) : World :=
  ⟨setAssoc w.dbs n s⟩

/-- A JSON value as seen by the router's validation checks. -/
inductive JVal where
  | jnull
  | jbool (b : Bool)
  | jnum (n : Int)
  | jstr (s : String)
deriving Repr, DecidableEq

/-- JavaScript truthiness of a JSON value. -/
def truthy : JVal → Bool
  | .jnull => false
  | .jbool b => b
  | .jnum n => n != 0
  | .jstr s => s != ""

/-- typeof v === "string". -/
def isStr : JVal → Bool
  | .jstr _ => true
  | _ => false

/-- The string payload of a JSON string (meaningful when isStr holds). -/
def jvalStr : JVal → String
  | .jstr s => s
  | _ => ""

/-- The SQLite binding of a JSON value (description inserted as-is). -/
def jvalValue : JVal → Value
  | .jnull => .vnull
  | .jbool b => .vint (if b then 1 else 0)
  | .jnum n => .vint n
  | .jstr s => .vtext s

/-- The parsed JSON request body.  A missing field is `none`
(destructuring yields undefined).  `sqlScript` is the statement
sequence the engine parses the `sql` string to, with the positional
`params` already bound to the placeholders; it is meaningful only when
`sqlVal` is a string. -/
structure ReqBody where
  nameVal : Option JVal
  descriptionVal : Option JVal
  sqlVal : Option JVal
  sqlScript : List Stmt
deriving Repr, DecidableEq

/-- The body carrying no fields. -/
def noBody : ReqBody := ⟨none, none, none, []⟩

/-- The router's parsed view of the URL: the fixed paths and the regex
captures (already percent-decoded), with `other` for everything the
regexes reject. -/
inductive RPath where
  | studio (db : Option String)
  | dbsRoot
  | dbsName (n : String)
  | dbSql (n : String)
  | dbMigrate (n : String)
  | dbMigrations (n : String)
  | dbSchema (n : String)
  | other
deriving Repr, DecidableEq

structure Request where
  method : String
  path : RPath
  apiKey : Option String
  body : ReqBody
deriving Repr, DecidableEq

/-- The JSON (or HTML) bodies the worker responds with. -/
inductive RBody where
  | jerr (msg : String)
  | jerrName (msg nm : String)
  | jokName (nm : String)
  | jmigrate (r : MigrateRes)
  | jdbs (rows : List Row)
  | jdbsUndef
  | jsql (q : QueryResult)
  | jmigrations (rows : List Row)
  | jschema (schema : List (String × List ColSpec)) (description : Value)
  | jstudio (db : Option String)
deriving Repr, DecidableEq

structure Response where
  status : Nat
  body : RBody
deriving Repr, DecidableEq

/-- The JS crash of reading `.rows` on an error result (surfaces as a
500 through the router's catch-all). -/
def crashMsg : String := "Cannot read properties of undefined"

/-- `!v || typeof v !== "string"` over an optional JSON field. -/
def strFieldInvalid : Option JVal → Bool
  | none => true
  | some v => ¬ (truthy v) || ¬ (isStr v)

/-- `description || null` bound as the SQL value. -/
def descValue : Option JVal → Value
  | none => .vnull
  | some v => if truthy v then jvalValue v else .vnull

/-- POST /dbs. -/
def handleCreateDb (w : World) (b : ReqBody) : World × Response :=
  if strFieldInvalid b.nameVal then
    (w, ⟨400, .jerr "name is required"⟩)
  else
    let name := jvalStr (b.nameVal.getD .jnull)
    if strStartsWith name "_sor_" then
      (w, ⟨400, .jerr "Database name cannot start with _sor_"⟩)
    else
      match ensureSystemMigrations (w.get REGISTRY_DB) with
      | (r1, some e) => (w.set REGISTRY_DB r1, ⟨500, .jerr e⟩)
      | (r1, none) =>
        match Db.sql [.select ["name"] "dbs" (some ("name", .vtext name)) none] r1 with
        | (r2, .err _) => (w.set REGISTRY_DB r2, ⟨500, .jerr crashMsg⟩)
        | (r2, .ok q) =>
          if q.rows.length > 0 then
            (w.set REGISTRY_DB r2, ⟨409, .jerrName "Database already exists" name⟩)
          else
            let (r3, _) := Db.sql [.insert "dbs" ["name", "description"]
              [.vtext name, descValue b.descriptionVal]] r2
            (w.set REGISTRY_DB r3, ⟨201, .jokName name⟩)

/-- GET /dbs. -/
def handleListDbs (w : World) : World × Response :=
  match ensureSystemMigrations (w.get REGISTRY_DB) with
  | (r1, some e) => (w.set REGISTRY_DB r1, ⟨500, .jerr e⟩)
  | (r1, none) =>
    match Db.sql [.select ["name", "description", "created_at"] "dbs" none
        (some "created_at")] r1 with
    | (r2, .err _) => (w.set REGISTRY_DB r2, ⟨200, .jdbsUndef⟩)
    | (r2, .ok q) => (w.set REGISTRY_DB r2, ⟨200, .jdbs q.rows⟩)

/-- DELETE /dbs/:name. -/
def handleDeleteDb (w : World) (name : String) : World × Response :=
  if strStartsWith name "_sor_" then
    (w, ⟨400, .jerr "Cannot delete system database"⟩)
  else
    match ensureSystemMigrations (w.get REGISTRY_DB) with
    | (r1, some e) => (w.set REGISTRY_DB r1, ⟨500, .jerr e⟩)
    | (r1, none) =>
      match Db.sql [.select ["name"] "dbs" (some ("name", .vtext name)) none] r1 with
      | (r2, .err _) => (w.set REGISTRY_DB r2, ⟨500, .jerr crashMsg⟩)
      | (r2, .ok q) =>
        if q.rows.length = 0 then
          (w.set REGISTRY_DB r2, ⟨404, .jerrName "Database not found" name⟩)
        else
          let (r3, _) := Db.sql [.delete "dbs" "name" (.vtext name)] r2
          (w.set REGISTRY_DB r3, ⟨200, .jokName name⟩)

/-- POST /db/:db/sql. -/
def handleSql (w : World) (n : String) (b : ReqBody) : World × Response :=
  if strFieldInvalid b.sqlVal then
    (w, ⟨400, .jerr "sql is required"⟩)
  else
    match Db.sql b.sqlScript (w.get n) with
    | (s', .err e) => (w.set n s', ⟨400, .jerr e⟩)
    | (s', .ok q) => (w.set n s', ⟨200, .jsql q⟩)

/-- POST /db/:db/migrate. -/
def handleMigrate (w : World) (n : String) (b : ReqBody) : World × Response :=
  if strFieldInvalid b.nameVal then
    (w, ⟨400, .jerr "name is required"⟩)
  else if strFieldInvalid b.sqlVal then
    (w, ⟨400, .jerr "sql is required"⟩)
  else
    let mname := jvalStr (b.nameVal.getD .jnull)
    let mtext := jvalStr (b.sqlVal.getD .jnull)
    match Db.migrate mname mtext b.sqlScript (w.get n) with
    | (s', .error e) => (w.set n s', ⟨500, .jerr e⟩)
    | (s', .ok r) => (w.set n s', ⟨if r.ok then 200 else 400, .jmigrate r⟩)

/-- GET /db/:db/migrations. -/
def handleListMigrations (w : World) (n : String) : World × Response :=
  match Db.listMigrations (w.get n) with
  | (s', .error e) => (w.set n s', ⟨500, .jerr e⟩)
  | (s', .ok rows) => (w.set n s', ⟨200, .jmigrations rows⟩)

/-- GET /db/:db/schema. -/
def handleSchema (w : World) (n : String) : World × Response :=
  let sch := Db.getSchema (w.get n)
  match ensureSystemMigrations (w.get REGISTRY_DB) with
  | (r1, some e) => (w.set REGISTRY_DB r1, ⟨500, .jerr e⟩)
  | (r1, none) =>
    match Db.sql [.select ["description"] "dbs" (some ("name", .vtext n)) none] r1 with
    | (r2, .err _) => (w.set REGISTRY_DB r2, ⟨500, .jerr crashMsg⟩)
    | (r2, .ok q) =>
      let description :=
        if q.rows.length > 0 then
          (List.lookup "description" (q.rows.headD [])).getD .vnull
        else .vnull
      (w.set REGISTRY_DB r2, ⟨200, .jschema sch description⟩)

/-- Route dispatch after authentication, in source order; the patterns
are mutually exclusive, unmatched requests fall through to 404. -/
def route (w : World) (req : Request) : World × Response :=
  match req.method, req.path with
  | "POST", .dbsRoot => handleCreateDb w req.body
  | "GET", .dbsRoot => handleListDbs w
  | "DELETE", .dbsName n => handleDeleteDb w n
  | "POST", .dbSql n => handleSql w n req.body
  | "POST", .dbMigrate n => handleMigrate w n req.body
  | "GET", .dbMigrations n => handleListMigrations w n
  | "GET", .dbSchema n => handleSchema w n
  | _, _ => (w, ⟨404, .jerr "Not found"⟩)

/-- The worker fetch handler: the studio route is served before (and
without) the API-key check; every other request is answered 401 unless
the X-API-Key header equals the secret. -/
def fetch (secret : String) (w : World) (req : Request) : World × Response :=
  match req.path with
  | .studio db => (w, ⟨200, .jstudio db⟩)
  | _ =>
    if req.apiKey == some secret then route w req
    else (w, ⟨401, .jerr "Unauthorized"⟩)

/-! ## Derived observations used by the statements -/

/-- Rows of the migration ledger of a handle (empty when absent). -/
def ledgerRows (s : EngineState) : List Row :=
  ((lookupTable s "_sor_migrations").map Table.rows).getD []

/-- Does some row of `rows` carry `name = n`. -/
def rowsHasName (rows : List Row) (n : String) : Bool :=
  rows.any (fun r => List.lookup "name" r = some (.vtext n))

/-- Is migration `n` recorded in the ledger of handle `s`. -/
def ledgerHas (s : EngineState) (n : String) : Bool :=
  rowsHasName (ledgerRows s) n

/-- Rows of the registry catalog table `dbs` (empty when absent). -/
def dbsRows (s : EngineState) : List Row :=
  ((lookupTable s "dbs").map Table.rows).getD []

/-- Is database `n` catalogued in registry state `s`. -/
def dbsHas (s : EngineState) (n : String) : Bool :=
  rowsHasName (dbsRows s) n

/-- The ledger table, when present, has its standard columns. -/
def ledgerWF (s : EngineState) : Bool :=
  match lookupTable s "_sor_migrations" with
  | none => true
  | some tb => tb.cols == ledgerCols

/-- The catalog table, when present, has its standard columns. -/
def dbsWF (s : EngineState) : Bool :=
  match lookupTable s "dbs" with
  | none => true
  | some tb => tb.cols == dbsCols

/-- Sane registry storage: standard ledger and catalog columns, and the
catalog table exists whenever its creating system migration is recorded
in the ledger. -/
def RegSane (s : EngineState) : Bool :=
  ledgerWF s && dbsWF s &&
    (!(ledgerHas s "001_create_dbs_table") || (lookupTable s "dbs").isSome)

/-- The rows of a {dbs: rows} response body (empty for other bodies). -/
def rbodyDbsRows : RBody → List Row
  | .jdbs rows => rows
  | _ => []

instance (ob : String) : IsTotal Row (rowLe ob) :=
  ⟨fun a b => by
    unfold rowLe
    rcases ha : (List.lookup ob a).getD .vnull with _ | i | x <;>
      rcases hb : (List.lookup ob b).getD .vnull with _ | j | y <;>
      simp [vle]
    · exact Int.le_total i j
    · exact le_total x.data y.data⟩

instance (ob : String) : IsTrans Row (rowLe ob) :=
  ⟨fun a b c hab hbc => by
    unfold rowLe at hab hbc ⊢
    rcases ha : (List.lookup ob a).getD .vnull with _ | i | x <;>
      rcases hb : (List.lookup ob b).getD .vnull with _ | j | y <;>
      rcases hc : (List.lookup ob c).getD .vnull with _ | k | z <;>
      rw [ha, hb] at hab <;> rw [hb, hc] at hbc <;> simp [vle] at hab hbc ⊢
    · exact le_trans hab hbc
    · exact le_trans hab hbc⟩

/-! ## Association list and world lemmas -/

theorem lookup_setAssoc_self {β : Type} (l : List (String × β)) (k : String) (v : β) :
    List.lookup k (setAssoc l k v) = some v := by
  induction l with
  | nil => simp [setAssoc, List.lookup]
  | cons p rest ih =>
    obtain ⟨k', v'⟩ := p
    by_cases h : k' = k
    · subst h
      simp [setAssoc, List.lookup]
    · have hk : (k == k') = false := by
        simp [beq_iff_eq]
        exact fun hh => h hh.symm
      simp [setAssoc, h, List.lookup, hk, ih]

theorem lookup_setAssoc_ne {β : Type} (l : List (String × β)) (k k' : String) (v : β)
    (h : k' ≠ k) : List.lookup k' (setAssoc l k v) = List.lookup k' l := by
  have hk : (k' == k) = false := by simp [beq_iff_eq, h]
  induction l with
  | nil => simp [setAssoc, List.lookup, hk]
  | cons p rest ih =>
    obtain ⟨a, b⟩ := p
    by_cases ha : a = k
    · subst ha
      simp [setAssoc, List.lookup, hk]
    · simp [setAssoc, ha, List.lookup, ih]

theorem lookup_append_left {β : Type} (l₁ l₂ : List (String × β)) (k : String)
    (h : List.lookup k l₁ = none) : List.lookup k (l₁ ++ l₂) = List.lookup k l₂ := by
  induction l₁ with
  | nil => simp
  | cons p rest ih =>
    obtain ⟨a, b⟩ := p
    cases ha : (k == a) with
    | true => simp [List.lookup, ha] at h
    | false =>
      simp only [List.cons_append, List.lookup, ha] at h ⊢
      exact ih h

theorem lookup_append_some {β : Type} (l₁ l₂ : List (String × β)) (k : String) (v : β)
    (h : List.lookup k l₁ = some v) : List.lookup k (l₁ ++ l₂) = some v := by
  induction l₁ with
  | nil => simp [List.lookup] at h
  | cons p rest ih =>
    obtain ⟨a, b⟩ := p
    cases ha : (k == a) with
    | true => simp_all [List.lookup, ha]
    | false =>
      simp only [List.cons_append, List.lookup, ha] at h ⊢
      exact ih h

theorem World.get_set_self (w : World) (n : String) (s : EngineState) :
    (w.set n s).get n = s := by
  simp [World.get, World.set, lookup_setAssoc_self]

theorem World.get_set_ne (w : World) (n m : String) (s : EngineState)
    (h : m ≠ n) : (w.set n s).get m = w.get m := by
  simp [World.get, World.set, lookup_setAssoc_ne _ _ _ _ h]

/-! ## Engine lemmas -/

theorem ensure_present (s : EngineState) (tb : Table)
    (h : lookupTable s "_sor_migrations" = some tb) : ensureMigrationsTable s = s := by
  simp [ensureMigrationsTable, execStmt, h]

theorem ensure_absent (s : EngineState) (h : lookupTable s "_sor_migrations" = none) :
    ensureMigrationsTable s =
      { s with tables := s.tables ++ [("_sor_migrations", ⟨ledgerCols, []⟩)] } := by
  simp [ensureMigrationsTable, execStmt, h]

theorem lookupTable_ensure (s : EngineState) (hwf : ledgerWF s = true) :
    lookupTable (ensureMigrationsTable s) "_sor_migrations" =
      some ⟨ledgerCols, ledgerRows s⟩ := by
  cases h : lookupTable s "_sor_migrations" with
  | none =>
    rw [ensure_absent s h]
    unfold lookupTable at h ⊢
    simp only [ledgerRows, lookupTable, h, Option.map_none, Option.getD_none]
    rw [lookup_append_left _ _ _ h]
    simp [List.lookup]
  | some tb =>
    rw [ensure_present s tb h]
    unfold ledgerWF at hwf
    rw [h] at hwf
    simp only [beq_iff_eq] at hwf
    simp [ledgerRows, h, ← hwf]

theorem lookupTable_ensure_ne (s : EngineState) (t : String)
    (hne : t ≠ "_sor_migrations") :
    lookupTable (ensureMigrationsTable s) t = lookupTable s t := by
  cases h : lookupTable s "_sor_migrations" with
  | none =>
    rw [ensure_absent s h]
    unfold lookupTable
    cases ht : List.lookup t s.tables with
    | none =>
      rw [lookup_append_left _ _ _ ht]
      have hbe : (t == "_sor_migrations") = false := by simp [beq_iff_eq, hne]
      simp [List.lookup, hbe]
    | some tb => exact lookup_append_some _ _ _ _ ht
  | some tb => rw [ensure_present s tb h]

theorem ensure_clock (s : EngineState) :
    (ensureMigrationsTable s).clock = s.clock := by
  cases h : lookupTable s "_sor_migrations" with
  | none => rw [ensure_absent s h]
  | some tb => rw [ensure_present s tb h]

theorem ledgerWF_ensure (s : EngineState) (hwf : ledgerWF s = true) :
    ledgerWF (ensureMigrationsTable s) = true := by
  simp [ledgerWF, lookupTable_ensure s hwf]

theorem ledgerRows_ensure (s : EngineState) (hwf : ledgerWF s = true) :
    ledgerRows (ensureMigrationsTable s) = ledgerRows s := by
  simp [ledgerRows, lookupTable_ensure s hwf]

theorem execStmt_selectLedgerName (s : EngineState) (rows : List Row) (n : String)
    (h : lookupTable s "_sor_migrations" = some ⟨ledgerCols, rows⟩) :
    execStmt s (selectLedgerName n) =
      .ok (s,
        ⟨(rows.filter (fun r => List.lookup "name" r = some (.vtext n))).map
            (projRow ["name"]),
          ["name"],
          (rows.filter (fun r => List.lookup "name" r = some (.vtext n))).length, 0⟩) := by
  simp [selectLedgerName, execStmt, h, colNames, ledgerCols]

theorem filter_name_pos (rows : List Row) (n : String) :
    (0 < (rows.filter
        (fun r => List.lookup "name" r = some (.vtext n))).length) ↔
      rowsHasName rows n = true := by
  rw [rowsHasName, List.length_pos, List.any_eq_true]
  constructor
  · intro h
    obtain ⟨r, hr⟩ := List.exists_mem_of_ne_nil _ h
    have := List.of_mem_filter hr
    exact ⟨r, List.mem_of_mem_filter hr, this⟩
  · intro ⟨r, hr, hp⟩
    intro hnil
    have : r ∈ rows.filter (fun r => List.lookup "name" r = some (.vtext n)) :=
      List.mem_filter.mpr ⟨hr, hp⟩
    rw [hnil] at this
    simp at this

/-! ## Db.migrate characterization -/

theorem migrate_already (s : EngineState) (n t : String) (sc : List Stmt)
    (hwf : ledgerWF s = true) (h : ledgerHas s n = true) :
    Db.migrate n t sc s =
      (ensureMigrationsTable s,
        .ok ⟨false, some "Migration already applied", n⟩) := by
  have hlk : lookupTable (ensureMigrationsTable s) "_sor_migrations" =
      some ⟨ledgerCols, ledgerRows s⟩ := lookupTable_ensure s hwf
  have hsel := execStmt_selectLedgerName (ensureMigrationsTable s) (ledgerRows s) n hlk
  have hpos : 0 < ((ledgerRows s).filter
      (fun r => List.lookup "name" r = some (.vtext n))).length :=
    (filter_name_pos _ _).mpr h
  simp only [Db.migrate, hsel, List.length_map]
  rw [if_pos hpos]

theorem migrate_fresh_tx (s : EngineState) (n t : String) (sc : List Stmt)
    (hwf : ledgerWF s = true) (h : ledgerHas s n = false) :
    Db.migrate n t sc s =
      match transactionSync (ensureMigrationsTable s) (migrationTxnBody n t sc) with
      | (s3, none) => (s3, .ok ⟨true, none, n⟩)
      | (s3, some e) => (s3, .ok ⟨false, some e, n⟩) := by
  have hlk : lookupTable (ensureMigrationsTable s) "_sor_migrations" =
      some ⟨ledgerCols, ledgerRows s⟩ := lookupTable_ensure s hwf
  have hsel := execStmt_selectLedgerName (ensureMigrationsTable s) (ledgerRows s) n hlk
  have hpos : ¬ 0 < ((ledgerRows s).filter
      (fun r => List.lookup "name" r = some (.vtext n))).length := by
    rw [filter_name_pos]
    simpa [ledgerHas] using h
  simp only [Db.migrate, hsel, List.length_map]
  rw [if_neg hpos]

theorem migrate_fresh_fail (s : EngineState) (n t : String) (sc : List Stmt) (e : String)
    (hwf : ledgerWF s = true) (h : ledgerHas s n = false)
    (htx : migrationTxnBody n t sc (ensureMigrationsTable s) = .error e) :
    Db.migrate n t sc s =
      (ensureMigrationsTable s, .ok ⟨false, some e, n⟩) := by
  rw [migrate_fresh_tx s n t sc hwf h]
  simp [transactionSync, htx]

theorem migrate_fresh_ok (s : EngineState) (n t : String) (sc : List Stmt)
    (s2 : EngineState)
    (hwf : ledgerWF s = true) (h : ledgerHas s n = false)
    (htx : migrationTxnBody n t sc (ensureMigrationsTable s) = .ok s2) :
    Db.migrate n t sc s = (s2, .ok ⟨true, none, n⟩) := by
  rw [migrate_fresh_tx s n t sc hwf h]
  simp [transactionSync, htx]

theorem mkCell_fst (cols : List String) (vals : List Value) (clk : Nat) (c : ColSpec) :
    (mkCell cols vals clk c).1 = c.cname := by
  unfold mkCell
  cases List.lookup c.cname (cols.zip vals) with
  | some v => rfl
  | none => cases c.dflt <;> rfl

theorem mkRow_name (specs : List ColSpec) (n t : String) (clk : Nat)
    (h : "name" ∈ colNames specs) :
    List.lookup "name" (mkRow specs ["name", "sql"] [.vtext n, .vtext t] clk) =
      some (.vtext n) := by
  induction specs with
  | nil => simp [colNames] at h
  | cons c rest ih =>
    by_cases hc : c.cname = "name"
    · simp [mkRow, mkCell, hc, List.lookup, List.zip]
    · have hmem : "name" ∈ colNames rest := by
        simp [colNames] at h ⊢
        rcases h with h | h
        · exact absurd h.symm hc
        · exact h
      rcases hcell : mkCell ["name", "sql"] [Value.vtext n, Value.vtext t] clk c
        with ⟨k0, v0⟩
      have hk0 : k0 = c.cname := by
        have hf := mkCell_fst ["name", "sql"] [Value.vtext n, Value.vtext t] clk c
        rw [hcell] at hf
        exact hf
      have hbe : ("name" == k0) = false := by
        rw [hk0]
        simp [beq_iff_eq]
        exact fun hh => hc hh.symm
      rw [mkRow, List.map_cons, hcell]
      simp only [List.lookup, hbe]
      exact ih hmem

/-- A successful ledger insert records the migration name. -/
theorem insertLedger_ledgerHas (u s2 : EngineState) (n t : String) (q : QueryResult)
    (h : execStmt u (insertLedger n t) = .ok (s2, q)) :
    ledgerHas s2 n = true := by
  rw [insertLedger] at h
  simp only [execStmt] at h
  cases hu : lookupTable u "_sor_migrations" with
  | none => rw [hu] at h; simp at h
  | some tb =>
    rw [hu] at h
    simp only at h
    by_cases hcols : (List.all ["name", "sql"] fun c => decide (c ∈ colNames tb.cols)) = true
    · rw [if_pos hcols] at h
      by_cases hconf : rowConflict tb.cols tb.rows
          (mkRow tb.cols ["name", "sql"] [.vtext n, .vtext t] u.clock) = true
      · rw [if_pos hconf] at h; simp at h
      · rw [if_neg hconf] at h
        simp only [Except.ok.injEq, Prod.mk.injEq] at h
        obtain ⟨h1, _⟩ := h
        have hname : "name" ∈ colNames tb.cols := by
          simp [List.all_cons] at hcols
          exact hcols.1
        rw [← h1]
        simp only [ledgerHas, ledgerRows, lookupTable, setTable]
        rw [lookup_setAssoc_self]
        simp only [Option.map_some, Option.getD_some, rowsHasName, List.any_append]
        have hlast : List.lookup "name"
            (mkRow tb.cols ["name", "sql"] [.vtext n, .vtext t] u.clock) =
            some (.vtext n) := mkRow_name tb.cols n t u.clock hname
        simp [hlast]
    · rw [if_neg hcols] at h; simp at h

/-! ## Db.listMigrations characterization -/

theorem listMigrations_wf (s : EngineState) (hwf : ledgerWF s = true) :
    Db.listMigrations s =
      (ensureMigrationsTable s,
        .ok ((List.insertionSort (rowLe "applied_at") (ledgerRows s)).map
          (projRow ["name", "applied_at"]))) := by
  have hlk := lookupTable_ensure s hwf
  simp only [Db.listMigrations, execStmt, hlk]
  simp [colNames, ledgerCols]

theorem projNA_name (r : Row) (n : String) :
    (List.lookup "name" (projRow ["name", "applied_at"] r) = some (.vtext n)) ↔
      (List.lookup "name" r = some (.vtext n)) := by
  simp only [projRow, List.map_cons, List.map_nil, List.lookup, beq_self_eq_true]
  cases h : List.lookup "name" r with
  | none => simp
  | some v => simp

theorem rowsHasName_proj_sort (rows : List Row) (n : String) :
    rowsHasName ((List.insertionSort (rowLe "applied_at") rows).map
      (projRow ["name", "applied_at"])) n = rowsHasName rows n := by
  rw [Bool.eq_iff_iff]
  simp only [rowsHasName, List.any_eq_true, List.mem_map]
  constructor
  · rintro ⟨x, ⟨r, hr, rfl⟩, hp⟩
    refine ⟨r, (List.perm_insertionSort (rowLe "applied_at") rows).mem_iff.mp hr, ?_⟩
    simp only [decide_eq_true_eq] at hp ⊢
    exact (projNA_name r n).mp hp
  · rintro ⟨r, hr, hp⟩
    refine ⟨projRow ["name", "applied_at"] r,
      ⟨r, (List.perm_insertionSort (rowLe "applied_at") rows).mem_iff.mpr hr, rfl⟩, ?_⟩
    simp only [decide_eq_true_eq] at hp ⊢
    exact (projNA_name r n).mpr hp

/-! ## Claim C1 -/

/-- Claim C1: for every handle and migration (name, sql) not yet in the
ledger, migrate applies the SQL and inserts the ledger row atomically.
If the transaction body fails, the call returns a failure outcome with
the engine's message, the post-call state is exactly the pre-call state
(plus only the empty ledger table, created outside the transaction), so
none of the SQL's partial effects are visible, the ledger does not
contain the name, and listMigrations does not list it.  If it succeeds,
the post-call state is the transaction result holding both the schema
change (the executed script) and the ledger row, never one without the
other. -/
theorem migrate_atomicity (s : EngineState) (n t : String) (sc : List Stmt)
    (hwf : ledgerWF s = true) (hfresh : ledgerHas s n = false) :
    (∀ e, migrationTxnBody n t sc (ensureMigrationsTable s) = .error e →
      Db.migrate n t sc s = (ensureMigrationsTable s, .ok ⟨false, some e, n⟩) ∧
      ledgerHas (ensureMigrationsTable s) n = false ∧
      ∃ rows, (Db.listMigrations (ensureMigrationsTable s)).2 = .ok rows ∧
        rowsHasName rows n = false) ∧
    (∀ s2, migrationTxnBody n t sc (ensureMigrationsTable s) = .ok s2 →
      Db.migrate n t sc s = (s2, .ok ⟨true, none, n⟩) ∧
      ledgerHas s2 n = true ∧
      ∃ u q qr, execScript (ensureMigrationsTable s) sc = (u, .ok q) ∧
        execStmt u (insertLedger n t) = .ok (s2, qr)) := by
  constructor
  · intro e htx
    refine ⟨migrate_fresh_fail s n t sc e hwf hfresh htx, ?_, ?_⟩
    · rw [ledgerHas, ledgerRows_ensure s hwf]
      exact hfresh
    · have hwf' := ledgerWF_ensure s hwf
      refine ⟨(List.insertionSort (rowLe "applied_at")
          (ledgerRows (ensureMigrationsTable s))).map (projRow ["name", "applied_at"]),
        ?_, ?_⟩
      · rw [listMigrations_wf _ hwf']
      · rw [rowsHasName_proj_sort]
        rw [ledgerRows_ensure s hwf]
        exact hfresh
  · intro s2 htx
    refine ⟨migrate_fresh_ok s n t sc s2 hwf hfresh htx, ?_, ?_⟩
    · unfold migrationTxnBody at htx
      cases hsc : execScript (ensureMigrationsTable s) sc with
      | mk u r =>
        rw [hsc] at htx
        cases r with
        | error e => simp at htx
        | ok q =>
          simp only at htx
          cases hins : execStmt u (insertLedger n t) with
          | error e => rw [hins] at htx; simp at htx
          | ok p =>
            rw [hins] at htx
            simp only [Except.ok.injEq] at htx
            obtain ⟨s2', qr⟩ := p
            simp only at htx
            subst htx
            exact insertLedger_ledgerHas u s2' n t qr hins
    · unfold migrationTxnBody at htx
      cases hsc : execScript (ensureMigrationsTable s) sc with
      | mk u r =>
        rw [hsc] at htx
        cases r with
        | error e => simp at htx
        | ok q =>
          simp only at htx
          cases hins : execStmt u (insertLedger n t) with
          | error e => rw [hins] at htx; simp at htx
          | ok p =>
            rw [hins] at htx
            simp only [Except.ok.injEq] at htx
            obtain ⟨s2', qr⟩ := p
            simp only at htx
            subst htx
            exact ⟨u, q, qr, rfl, hins⟩

/-- Witness for C1 at a concrete input: a failing migration on a fresh
handle is rolled back and reported. -/
theorem migrate_atomicity_witness :
    Db.migrate "m" "boom" [Stmt.insert "nope" [] []] emptyEngine =
      (ensureMigrationsTable emptyEngine,
        .ok ⟨false, some "no such table: nope", "m"⟩) :=
  ((migrate_atomicity emptyEngine "m" "boom" [Stmt.insert "nope" [] []]
    rfl rfl).1 "no such table: nope" rfl).1

/-! ## Claim C2 -/

theorem execStmt_selectLedgerName_gen (s : EngineState) (tb : Table) (n : String)
    (h : lookupTable s "_sor_migrations" = some tb)
    (hn : "name" ∈ colNames tb.cols) :
    execStmt s (selectLedgerName n) =
      .ok (s,
        ⟨(tb.rows.filter (fun r => List.lookup "name" r = some (.vtext n))).map
            (projRow ["name"]),
          ["name"],
          (tb.rows.filter (fun r => List.lookup "name" r = some (.vtext n))).length,
          0⟩) := by
  simp [selectLedgerName, execStmt, h, hn]

theorem migrate_already_gen (s : EngineState) (n t : String) (sc : List Stmt)
    (tb : Table) (h : lookupTable s "_sor_migrations" = some tb)
    (hn : "name" ∈ colNames tb.cols) (hhas : rowsHasName tb.rows n = true) :
    Db.migrate n t sc s =
      (s, .ok ⟨false, some "Migration already applied", n⟩) := by
  have hens : ensureMigrationsTable s = s := ensure_present s tb h
  have hsel := execStmt_selectLedgerName_gen s tb n h hn
  have hpos : 0 < (tb.rows.filter
      (fun r => List.lookup "name" r = some (.vtext n))).length :=
    (filter_name_pos _ _).mpr hhas
  simp only [Db.migrate, hens, hsel, List.length_map]
  rw [if_pos hpos]

/-- A successful ledger insert leaves a ledger table that still has its
name column and now records the migration. -/
theorem insertLedger_spec (u s2 : EngineState) (n t : String) (q : QueryResult)
    (h : execStmt u (insertLedger n t) = .ok (s2, q)) :
    ∃ tb2, lookupTable s2 "_sor_migrations" = some tb2 ∧
      "name" ∈ colNames tb2.cols ∧ rowsHasName tb2.rows n = true := by
  rw [insertLedger] at h
  simp only [execStmt] at h
  cases hu : lookupTable u "_sor_migrations" with
  | none => rw [hu] at h; simp at h
  | some tb =>
    rw [hu] at h
    simp only at h
    by_cases hcols : (List.all ["name", "sql"] fun c => decide (c ∈ colNames tb.cols)) = true
    · rw [if_pos hcols] at h
      by_cases hconf : rowConflict tb.cols tb.rows
          (mkRow tb.cols ["name", "sql"] [.vtext n, .vtext t] u.clock) = true
      · rw [if_pos hconf] at h; simp at h
      · rw [if_neg hconf] at h
        simp only [Except.ok.injEq, Prod.mk.injEq] at h
        obtain ⟨h1, _⟩ := h
        have hname : "name" ∈ colNames tb.cols := by
          simp [List.all_cons] at hcols
          exact hcols.1
        refine ⟨⟨tb.cols, tb.rows ++
          [mkRow tb.cols ["name", "sql"] [.vtext n, .vtext t] u.clock]⟩, ?_, hname, ?_⟩
        · rw [← h1]
          simp only [lookupTable, setTable]
          exact lookup_setAssoc_self _ _ _
        · simp only [rowsHasName, List.any_append]
          have hlast := mkRow_name tb.cols n t u.clock hname
          simp [hlast]
    · rw [if_neg hcols] at h; simp at h

/-- Claim C2 (amended): for every handle, name and sql, if the first
call migrate(name, sql) on a handle whose ledger does not yet hold the
name succeeds (returns the applied outcome), then a second call under
the same name — with any, possibly different, sql — returns the
distinct "Migration already applied" outcome and leaves the handle
state completely unchanged, so the first call's schema change is the
only one in effect.  (The unamended claim also asserted the first call
always yields the applied outcome; that fails when the migration SQL
itself is invalid, see the counterexample.) -/
theorem migrate_idempotent (s : EngineState) (n t : String) (sc : List Stmt)
    (t' : String) (sc' : List Stmt) (s2 : EngineState)
    (hwf : ledgerWF s = true) (hfresh : ledgerHas s n = false)
    (hfirst : Db.migrate n t sc s = (s2, .ok ⟨true, none, n⟩)) :
    Db.migrate n t' sc' s2 =
      (s2, .ok ⟨false, some "Migration already applied", n⟩) := by
  rw [migrate_fresh_tx s n t sc hwf hfresh] at hfirst
  unfold transactionSync at hfirst
  cases htx : migrationTxnBody n t sc (ensureMigrationsTable s) with
  | error e => rw [htx] at hfirst; simp at hfirst
  | ok s3 =>
    rw [htx] at hfirst
    simp only [Prod.mk.injEq, Except.ok.injEq] at hfirst
    obtain ⟨hs3, _⟩ := hfirst
    subst hs3
    unfold migrationTxnBody at htx
    cases hsc : execScript (ensureMigrationsTable s) sc with
    | mk u r =>
      rw [hsc] at htx
      cases r with
      | error e => simp at htx
      | ok q =>
        simp only at htx
        cases hins : execStmt u (insertLedger n t) with
        | error e => rw [hins] at htx; simp at htx
        | ok p =>
          rw [hins] at htx
          simp only [Except.ok.injEq] at htx
          obtain ⟨s2', qr⟩ := p
          simp only at htx
          subst htx
          obtain ⟨tb2, hlk2, hn2, hhas2⟩ := insertLedger_spec u s2' n t qr hins
          exact migrate_already_gen s2' n t' sc' tb2 hlk2 hn2 hhas2

/-- Witness for C2 at a concrete input: after a successful first
migration on a fresh handle, re-running the same name with different
SQL reports "Migration already applied" and changes nothing. -/
theorem migrate_idempotent_witness :
    Db.migrate "001" "bad2" [Stmt.dropTab "missing"]
        (Db.migrate "001" "create" [Stmt.createTab false "t" []] emptyEngine).1 =
      ((Db.migrate "001" "create" [Stmt.createTab false "t" []] emptyEngine).1,
        .ok ⟨false, some "Migration already applied", "001"⟩) :=
  migrate_idempotent emptyEngine "001" "create" [Stmt.createTab false "t" []]
    "bad2" [Stmt.dropTab "missing"] _ rfl rfl rfl

/-- Counterexample to C2 as stated: with an invalid migration SQL, the
first call on a fresh handle does not yield the applied outcome. -/
theorem migrate_first_call_cex :
    ¬ ∃ r : MigrateRes,
      (Db.migrate "m" "boom2" [Stmt.insert "nope" [] []] emptyEngine).2 = .ok r ∧
        r.ok = true := by
  rintro ⟨r, hr, hok⟩
  have hv : (Db.migrate "m" "boom2" [Stmt.insert "nope" [] []] emptyEngine).2 =
      .ok ⟨false, some "no such table: nope", "m"⟩ := rfl
  rw [hv] at hr
  simp only [Except.ok.injEq] at hr
  subst hr
  simp at hok

/-! ## Router plumbing lemmas -/

theorem fetch_auth_ok (secret : String) (w : World) (m : String) (p : RPath)
    (bod : ReqBody) (hstud : ∀ db, p ≠ .studio db) :
    fetch secret w ⟨m, p, some secret, bod⟩ = route w ⟨m, p, some secret, bod⟩ := by
  cases p with
  | studio db => exact absurd rfl (hstud db)
  | dbsRoot => simp [fetch]
  | dbsName n => simp [fetch]
  | dbSql n => simp [fetch]
  | dbMigrate n => simp [fetch]
  | dbMigrations n => simp [fetch]
  | dbSchema n => simp [fetch]
  | other => simp [fetch]

/-! ## Claim C6 -/

/-- Claim C6: for every request whose path is not the browser-embed
route, an absent or mismatched X-API-Key header yields status 401 with
body {error: Unauthorized} and an unchanged world (no database
operation is performed); the studio route is served without the check,
whatever the key. -/
theorem auth_gate (secret : String) (w : World) (req : Request) :
    ((∀ db, req.path ≠ .studio db) → req.apiKey ≠ some secret →
      fetch secret w req = (w, ⟨401, .jerr "Unauthorized"⟩)) ∧
    (∀ db, req.path = .studio db →
      fetch secret w req = (w, ⟨200, .jstudio db⟩)) := by
  constructor
  · intro hns hk
    have hbe : (req.apiKey == some secret) = false := by
      simp [beq_eq_false_iff_ne, hk]
    obtain ⟨m, p, key, bod⟩ := req
    cases p with
    | studio db => exact absurd rfl (hns db)
    | dbsRoot => simp [fetch, hbe]
    | dbsName n => simp [fetch, hbe]
    | dbSql n => simp [fetch, hbe]
    | dbMigrate n => simp [fetch, hbe]
    | dbMigrations n => simp [fetch, hbe]
    | dbSchema n => simp [fetch, hbe]
    | other => simp [fetch, hbe]
  · intro db hdb
    obtain ⟨m, p, key, bod⟩ := req
    simp only at hdb
    subst hdb
    simp [fetch]

/-- Witness for C6: a request with no key to a protected route is
rejected 401 without touching any database. -/
theorem auth_gate_witness :
    fetch "k" emptyWorld ⟨"GET", .dbsRoot, none, noBody⟩ =
      (emptyWorld, ⟨401, .jerr "Unauthorized"⟩) :=
  (auth_gate "k" emptyWorld ⟨"GET", .dbsRoot, none, noBody⟩).1
    (fun _ h => RPath.noConfusion h) (fun h => Option.noConfusion h)

/-! ## Claim C7 -/

/-- Claim C7: an engine execution failure inside Db.sql never escapes
as an exception: the method returns the structured error result with
the engine's message, the router maps it to status 400 with the message
in the error field, and the handle remains usable — a subsequent
request whose script succeeds is served normally with status 200. -/
theorem sql_error_structured (secret : String) (w : World) (a txt : String)
    (sc : List Stmt) (s' : EngineState) (msg : String)
    (htxt : txt ≠ "")
    (hrun : execScript (w.get a) sc = (s', .error msg)) :
    Db.sql sc (w.get a) = (s', .err msg) ∧
    fetch secret w ⟨"POST", .dbSql a, some secret, ⟨none, none, some (.jstr txt), sc⟩⟩ =
      (w.set a s', ⟨400, .jerr msg⟩) ∧
    (∀ txt2 sc2 s2 q, txt2 ≠ "" → execScript s' sc2 = (s2, .ok q) →
      fetch secret (w.set a s') ⟨"POST", .dbSql a, some secret,
          ⟨none, none, some (.jstr txt2), sc2⟩⟩ =
        ((w.set a s').set a s2, ⟨200, .jsql q⟩)) := by
  have hval : strFieldInvalid (some (.jstr txt)) = false := by
    simp [strFieldInvalid, truthy, isStr, htxt]
  refine ⟨?_, ?_, ?_⟩
  · simp [Db.sql, hrun]
  · rw [fetch_auth_ok secret w "POST" (.dbSql a) _ (fun db => RPath.noConfusion)]
    simp [route, handleSql, hval, Db.sql, hrun]
  · intro txt2 sc2 s2 q htxt2 hrun2
    have hval2 : strFieldInvalid (some (.jstr txt2)) = false := by
      simp [strFieldInvalid, truthy, isStr, htxt2]
    rw [fetch_auth_ok secret _ "POST" (.dbSql a) _ (fun db => RPath.noConfusion)]
    have hget : (w.set a s').get a = s' := World.get_set_self w a s'
    simp [route, handleSql, hval2, Db.sql, hget, hrun2]

/-- Witness for C7: a failing statement on a fresh handle yields 400
with the engine message, and the handle then serves a valid script. -/
theorem sql_error_structured_witness :
    fetch "k" emptyWorld ⟨"POST", .dbSql "u", some "k",
        ⟨none, none, some (.jstr "x"), [Stmt.dropTab "t"]⟩⟩ =
      (emptyWorld.set "u" emptyEngine, ⟨400, .jerr "no such table: t"⟩) :=
  (sql_error_structured "k" emptyWorld "u" "x" [Stmt.dropTab "t"] emptyEngine
    "no such table: t" (by decide) rfl).2.1

/-! ## Claim C3 -/

theorem handleSql_frame (w : World) (a : String) (bod : ReqBody) (b : String)
    (h : b ≠ a) : (handleSql w a bod).1.get b = w.get b := by
  unfold handleSql
  by_cases hv : strFieldInvalid bod.sqlVal = true
  · rw [if_pos hv]
  · rw [if_neg hv]
    rcases hq : Db.sql bod.sqlScript (w.get a) with ⟨s', out⟩
    cases out <;> simp [hq, World.get_set_ne _ _ _ _ h]

theorem handleMigrate_frame (w : World) (a : String) (bod : ReqBody) (b : String)
    (h : b ≠ a) : (handleMigrate w a bod).1.get b = w.get b := by
  unfold handleMigrate
  by_cases hv : strFieldInvalid bod.nameVal = true
  · rw [if_pos hv]
  · rw [if_neg hv]
    by_cases hv2 : strFieldInvalid bod.sqlVal = true
    · rw [if_pos hv2]
    · rw [if_neg hv2]
      rcases hq : Db.migrate (jvalStr (bod.nameVal.getD .jnull))
          (jvalStr (bod.sqlVal.getD .jnull)) bod.sqlScript (w.get a) with ⟨s', out⟩
      cases out <;> simp [hq, World.get_set_ne _ _ _ _ h]

theorem handleListMigrations_frame (w : World) (a : String) (b : String)
    (h : b ≠ a) : (handleListMigrations w a).1.get b = w.get b := by
  unfold handleListMigrations
  rcases hq : Db.listMigrations (w.get a) with ⟨s', out⟩
  cases out <;> simp [hq, World.get_set_ne _ _ _ _ h]

theorem handleDeleteDb_frame (w : World) (a : String) (b : String)
    (h : b ≠ REGISTRY_DB) : (handleDeleteDb w a).1.get b = w.get b := by
  unfold handleDeleteDb
  by_cases hr : (strStartsWith a "_sor_") = true
  · rw [if_pos hr]
  · rw [if_neg hr]
    rcases hb : ensureSystemMigrations (w.get REGISTRY_DB) with ⟨r1, e1⟩
    cases e1 with
    | some e => simp [hb, World.get_set_ne _ _ _ _ h]
    | none =>
      simp only [hb]
      rcases hq : Db.sql [.select ["name"] "dbs" (some ("name", .vtext a)) none] r1
        with ⟨r2, out⟩
      cases out with
      | err e => simp [hq, World.get_set_ne _ _ _ _ h]
      | ok q =>
        simp only [hq]
        by_cases hz : q.rows.length = 0
        · rw [if_pos hz]
          simp [World.get_set_ne _ _ _ _ h]
        · rw [if_neg hz]
          rcases hd : Db.sql [.delete "dbs" "name" (.vtext a)] r2 with ⟨r3, out2⟩
          simp [hd, World.get_set_ne _ _ _ _ h]

/-- Claim C3: per-name isolation.  Executing SQL, a migration, or a
migration listing against database `a` leaves every other handle `b`
(the registry handle included, since a user database name differs from
the reserved registry name) untouched; deleting `a` from the catalog
touches only the registry handle, so it neither deletes nor alters any
other handle's storage (nor `a`'s own storage); and the response to a
SQL request on `a` is a function of `a`'s handle state alone, so data
written elsewhere is never visible through `a`. -/
theorem name_isolation (secret : String) (w : World) (a : String) (bod : ReqBody) :
    (∀ b, b ≠ a →
      (fetch secret w ⟨"POST", .dbSql a, some secret, bod⟩).1.get b = w.get b ∧
      (fetch secret w ⟨"POST", .dbMigrate a, some secret, bod⟩).1.get b = w.get b ∧
      (fetch secret w ⟨"GET", .dbMigrations a, some secret, bod⟩).1.get b = w.get b) ∧
    (∀ b, b ≠ REGISTRY_DB →
      (fetch secret w ⟨"DELETE", .dbsName a, some secret, bod⟩).1.get b = w.get b) ∧
    (∀ w₂ : World, w₂.get a = w.get a →
      (fetch secret w₂ ⟨"POST", .dbSql a, some secret, bod⟩).2 =
        (fetch secret w ⟨"POST", .dbSql a, some secret, bod⟩).2) := by
  refine ⟨?_, ?_, ?_⟩
  · intro b hb
    rw [fetch_auth_ok secret w "POST" (.dbSql a) _ (fun _ => RPath.noConfusion),
      fetch_auth_ok secret w "POST" (.dbMigrate a) _ (fun _ => RPath.noConfusion),
      fetch_auth_ok secret w "GET" (.dbMigrations a) _ (fun _ => RPath.noConfusion)]
    exact ⟨handleSql_frame w a bod b hb, handleMigrate_frame w a bod b hb,
      handleListMigrations_frame w a b hb⟩
  · intro b hb
    rw [fetch_auth_ok secret w "DELETE" (.dbsName a) _ (fun _ => RPath.noConfusion)]
    exact handleDeleteDb_frame w a b hb
  · intro w₂ hw
    rw [fetch_auth_ok secret w₂ "POST" (.dbSql a) _ (fun _ => RPath.noConfusion),
      fetch_auth_ok secret w "POST" (.dbSql a) _ (fun _ => RPath.noConfusion)]
    simp only [route]
    unfold handleSql
    rw [hw]
    by_cases hv : strFieldInvalid bod.sqlVal = true
    · simp [hv]
    · rw [if_neg hv]
      rcases hq : Db.sql bod.sqlScript (w.get a) with ⟨s', out⟩
      cases out <;> simp [hv, hq]

/-- Witness for C3: running SQL against database a leaves database b
and the registry untouched. -/
theorem name_isolation_witness :
    (fetch "k" emptyWorld ⟨"POST", .dbSql "a", some "k",
        ⟨none, none, some (.jstr "x"), [Stmt.createTab false "t" []]⟩⟩).1.get "b" =
      emptyWorld.get "b" :=
  ((name_isolation "k" emptyWorld "a"
    ⟨none, none, some (.jstr "x"), [Stmt.createTab false "t" []]⟩).1 "b"
    (by decide)).1


theorem ledgerHas_present (s : EngineState) (n : String) (h : ledgerHas s n = true) :
    ∃ tb, lookupTable s "_sor_migrations" = some tb ∧ rowsHasName tb.rows n = true := by
  unfold ledgerHas ledgerRows at h
  cases hl : lookupTable s "_sor_migrations" with
  | none => rw [hl] at h; simp [rowsHasName] at h
  | some tb =>
    rw [hl] at h
    simp only [Option.map, Option.getD] at h
    exact ⟨tb, rfl, h⟩

theorem regSane_ledgerWF (s : EngineState) (h : RegSane s = true) :
    ledgerWF s = true := by
  simp only [RegSane, Bool.and_eq_true] at h
  exact h.1.1

theorem regSane_dbsWF (s : EngineState) (h : RegSane s = true) :
    dbsWF s = true := by
  simp only [RegSane, Bool.and_eq_true] at h
  exact h.1.2

theorem regSane_dbs_present (s : EngineState) (h : RegSane s = true)
    (happ : ledgerHas s "001_create_dbs_table" = true) :
    (lookupTable s "dbs").isSome = true := by
  simp only [RegSane, Bool.and_eq_true] at h
  have h2 := h.2
  rw [happ] at h2
  simpa using h2

theorem name_mem_ledgerCols : "name" ∈ colNames ledgerCols := by
  simp [colNames, ledgerCols]

theorem rowConflict_ledger (rows : List Row) (n t : String) (clk : Nat)
    (h : rowsHasName rows n = false) :
    rowConflict ledgerCols rows
      (mkRow ledgerCols ["name", "sql"] [.vtext n, .vtext t] clk) = false := by
  have hname := mkRow_name ledgerCols n t clk name_mem_ledgerCols
  simp only [ledgerCols] at hname
  simp only [rowConflict, ledgerCols, List.any_cons, List.any_nil, Bool.false_and,
    Bool.or_false, Bool.true_and, Bool.false_or]
  simp only [hname]
  simpa [rowsHasName] using h

theorem bootstrap_applied (r : EngineState) (hsane : RegSane r = true)
    (happ : ledgerHas r "001_create_dbs_table" = true) :
    ensureSystemMigrations r = (r, none) := by
  obtain ⟨tb, hlk, hrows⟩ := ledgerHas_present r _ happ
  have hwf : ledgerWF r = true := regSane_ledgerWF r hsane
  have hcols : tb.cols = ledgerCols := by
    unfold ledgerWF at hwf
    rw [hlk] at hwf
    simpa [beq_iff_eq] using hwf
  have hn : "name" ∈ colNames tb.cols := by
    rw [hcols]
    exact name_mem_ledgerCols
  have hmig : ∀ t sc, Db.migrate "001_create_dbs_table" t sc r =
      (r, .ok ⟨false, some "Migration already applied", "001_create_dbs_table"⟩) :=
    fun t sc => migrate_already_gen r _ t sc tb hlk hn hrows
  simp [ensureSystemMigrations, runSystemMigrations, SYSTEM_MIGRATIONS, hmig]

theorem bootstrap_fresh (r : EngineState) (hsane : RegSane r = true)
    (hfresh : ledgerHas r "001_create_dbs_table" = false) :
    ∃ r', ensureSystemMigrations r = (r', none) ∧
      lookupTable r' "dbs" = some ⟨dbsCols, dbsRows r⟩ ∧
      ledgerHas r' "001_create_dbs_table" = true ∧
      RegSane r' = true := by
  have hwf : ledgerWF r = true := regSane_ledgerWF r hsane
  have hlkE := lookupTable_ensure r hwf
  have hscript : ∃ u, execScript (ensureMigrationsTable r)
        [Stmt.createTab true "dbs" dbsCols] = (u, .ok emptyQR) ∧
      lookupTable u "_sor_migrations" = some ⟨ledgerCols, ledgerRows r⟩ ∧
      lookupTable u "dbs" = some ⟨dbsCols, dbsRows r⟩ := by
    cases hd : lookupTable r "dbs" with
    | some tbd =>
      have hdE : lookupTable (ensureMigrationsTable r) "dbs" = some tbd := by
        rw [lookupTable_ensure_ne r "dbs" (by decide)]
        exact hd
      have hdcols : tbd.cols = dbsCols := by
        have h2 := regSane_dbsWF r hsane
        unfold dbsWF at h2
        rw [hd] at h2
        simpa [beq_iff_eq] using h2
      refine ⟨ensureMigrationsTable r, ?_, hlkE, ?_⟩
      · simp [execScript, execStmt, hdE]
      · rw [hdE, ← hdcols]
        simp [dbsRows, hd]
    | none =>
      have hdE : lookupTable (ensureMigrationsTable r) "dbs" = none := by
        rw [lookupTable_ensure_ne r "dbs" (by decide)]
        exact hd
      refine ⟨{ ensureMigrationsTable r with
        tables := (ensureMigrationsTable r).tables ++ [("dbs", ⟨dbsCols, []⟩)] },
        ?_, ?_, ?_⟩
      · simp [execScript, execStmt, hdE]
      · unfold lookupTable at hlkE ⊢
        exact lookup_append_some _ _ _ _ hlkE
      · unfold lookupTable at hdE ⊢
        rw [lookup_append_left _ _ _ hdE]
        unfold lookupTable at hd
        simp [List.lookup, dbsRows, lookupTable, hd]
  obtain ⟨u, hu, hul, hud⟩ := hscript
  have hcheck : (List.all ["name", "sql"] fun c => decide (c ∈ colNames ledgerCols)) = true := by
    decide
  have hconf := rowConflict_ledger (ledgerRows r) "001_create_dbs_table"
    sysMigText u.clock (by simpa [ledgerHas] using hfresh)
  have hins : execStmt u (insertLedger "001_create_dbs_table" sysMigText) =
      .ok (setTable { u with clock := u.clock + 1 } "_sor_migrations"
        ⟨ledgerCols, ledgerRows r ++
          [mkRow ledgerCols ["name", "sql"]
            [.vtext "001_create_dbs_table", .vtext sysMigText] u.clock]⟩,
        { emptyQR with rowsWritten := 1 }) := by
    simp only [insertLedger, execStmt, hul]
    simp [hcheck, hconf]
  set row := mkRow ledgerCols ["name", "sql"]
    [.vtext "001_create_dbs_table", .vtext sysMigText] u.clock with hrow
  set s2 := setTable { u with clock := u.clock + 1 } "_sor_migrations"
    ⟨ledgerCols, ledgerRows r ++ [row]⟩ with hs2
  have htx : migrationTxnBody "001_create_dbs_table" sysMigText
      [Stmt.createTab true "dbs" dbsCols] (ensureMigrationsTable r) = .ok s2 := by
    unfold migrationTxnBody
    simp only [hu]
    simp [hins]
  have hmig := migrate_fresh_ok r "001_create_dbs_table" sysMigText
    [Stmt.createTab true "dbs" dbsCols] s2 hwf hfresh htx
  have hs2ledger : lookupTable s2 "_sor_migrations" =
      some ⟨ledgerCols, ledgerRows r ++ [row]⟩ := by
    simp only [hs2, lookupTable, setTable]
    exact lookup_setAssoc_self _ _ _
  have hs2dbs : lookupTable s2 "dbs" = some ⟨dbsCols, dbsRows r⟩ := by
    simp only [hs2, lookupTable, setTable]
    rw [lookup_setAssoc_ne _ _ _ _ (by decide)]
    exact hud
  have hs2has : ledgerHas s2 "001_create_dbs_table" = true := by
    simp only [ledgerHas, ledgerRows, hs2ledger, Option.map_some, Option.getD_some,
      rowsHasName, List.any_append]
    have hname := mkRow_name ledgerCols "001_create_dbs_table" sysMigText
      u.clock name_mem_ledgerCols
    rw [← hrow] at hname
    simp [rowsHasName, hname]
  refine ⟨s2, ?_, hs2dbs, hs2has, ?_⟩
  · simp only [ensureSystemMigrations, runSystemMigrations, SYSTEM_MIGRATIONS, hmig]
  · simp only [RegSane, Bool.and_eq_true]
    refine ⟨⟨?_, ?_⟩, ?_⟩
    · simp [ledgerWF, hs2ledger]
    · simp [dbsWF, hs2dbs]
    · simp [hs2dbs]

/-- Bootstrap characterization: on a sane registry state the system
migration pass succeeds without surfacing an error, leaves the catalog
table present with its standard columns and its rows untouched, records
the system migration in the ledger, preserves sanity, and is idempotent
(a second pass is a silent no-op). -/
theorem bootstrap_spec (r : EngineState) (hsane : RegSane r = true) :
    ∃ r', ensureSystemMigrations r = (r', none) ∧
      lookupTable r' "dbs" = some ⟨dbsCols, dbsRows r⟩ ∧
      ledgerHas r' "001_create_dbs_table" = true ∧
      RegSane r' = true ∧
      ensureSystemMigrations r' = (r', none) := by
  cases happ : ledgerHas r "001_create_dbs_table" with
  | true =>
    have hpres := regSane_dbs_present r hsane happ
    cases hd : lookupTable r "dbs" with
    | none => rw [hd] at hpres; simp at hpres
    | some tbd =>
      have hdcols : tbd.cols = dbsCols := by
        have h2 := regSane_dbsWF r hsane
        unfold dbsWF at h2
        rw [hd] at h2
        simpa [beq_iff_eq] using h2
      refine ⟨r, bootstrap_applied r hsane happ, ?_, happ, hsane,
        bootstrap_applied r hsane happ⟩
      rw [hd, ← hdcols]
      simp [dbsRows, hd]
  | false =>
    obtain ⟨r', h1, h2, h3, h4⟩ := bootstrap_fresh r hsane happ
    exact ⟨r', h1, h2, h3, h4, bootstrap_applied r' h4 h3⟩

/-! ## Catalog SQL lemmas -/

theorem mkRow_lookup (specs : List ColSpec) (cols : List String) (vals : List Value)
    (clk : Nat) (k : String) (v : Value) (hmem : k ∈ colNames specs)
    (hz : List.lookup k (cols.zip vals) = some v) :
    List.lookup k (mkRow specs cols vals clk) = some v := by
  induction specs with
  | nil => simp [colNames] at hmem
  | cons c rest ih =>
    by_cases hc : c.cname = k
    · simp [mkRow, mkCell, hc, hz, List.lookup]
    · have hmem2 : k ∈ colNames rest := by
        simp [colNames] at hmem ⊢
        rcases hmem with hmem | hmem
        · exact absurd hmem.symm hc
        · exact hmem
      rcases hcell : mkCell cols vals clk c with ⟨k0, v0⟩
      have hk0 : k0 = c.cname := by
        have hf := mkCell_fst cols vals clk c
        rw [hcell] at hf
        exact hf
      have hbe : (k == k0) = false := by
        rw [hk0]
        simp [beq_iff_eq]
        exact fun hh => hc hh.symm
      rw [mkRow, List.map_cons, hcell]
      simp only [List.lookup, hbe]
      exact ih hmem2

theorem rowConflict_dbs (rows : List Row) (n : String) (d : Value) (clk : Nat)
    (h : rowsHasName rows n = false) :
    rowConflict dbsCols rows
      (mkRow dbsCols ["name", "description"] [.vtext n, d] clk) = false := by
  have hname : List.lookup "name"
      (mkRow dbsCols ["name", "description"] [.vtext n, d] clk) = some (.vtext n) := by
    refine mkRow_lookup dbsCols _ _ clk "name" _ (by simp [colNames, dbsCols]) ?_
    simp [List.zip, List.lookup]
  simp only [dbsCols] at hname
  simp only [rowConflict, dbsCols, List.any_cons, List.any_nil, Bool.false_and,
    Bool.or_false, Bool.true_and, Bool.false_or]
  simp only [hname]
  simpa [rowsHasName] using h

theorem sql_select_dbs_name (r : EngineState) (rows : List Row) (n : String)
    (h : lookupTable r "dbs" = some ⟨dbsCols, rows⟩) :
    Db.sql [.select ["name"] "dbs" (some ("name", .vtext n)) none] r =
      (r, .ok
        ⟨(rows.filter (fun row => List.lookup "name" row = some (.vtext n))).map
            (projRow ["name"]),
          ["name"],
          (rows.filter (fun row => List.lookup "name" row = some (.vtext n))).length,
          0⟩) := by
  simp [Db.sql, execScript, execStmt, h, colNames, dbsCols]

theorem sql_insert_dbs (r : EngineState) (rows : List Row) (n : String) (d : Value)
    (h : lookupTable r "dbs" = some ⟨dbsCols, rows⟩)
    (hfresh : rowsHasName rows n = false) :
    Db.sql [.insert "dbs" ["name", "description"] [.vtext n, d]] r =
      (setTable { r with clock := r.clock + 1 } "dbs"
        ⟨dbsCols, rows ++ [mkRow dbsCols ["name", "description"] [.vtext n, d] r.clock]⟩,
        .ok { emptyQR with rowsWritten := 1 }) := by
  have hconf := rowConflict_dbs rows n d r.clock hfresh
  have hcheck : (List.all ["name", "description"]
      fun c => decide (c ∈ colNames dbsCols)) = true := by decide
  simp only [Db.sql, execScript, execStmt, h]
  simp [hcheck, hconf]

theorem sql_delete_dbs (r : EngineState) (rows : List Row) (n : String)
    (h : lookupTable r "dbs" = some ⟨dbsCols, rows⟩) :
    Db.sql [.delete "dbs" "name" (.vtext n)] r =
      (setTable r "dbs"
        ⟨dbsCols, rows.filter (fun row => ¬ (List.lookup "name" row = some (.vtext n)))⟩,
        .ok { emptyQR with rowsWritten := rows.length -
          (rows.filter (fun row => ¬ (List.lookup "name" row = some (.vtext n)))).length }) := by
  simp [Db.sql, execScript, execStmt, h]

theorem sql_select_dbs_all (r : EngineState) (rows : List Row)
    (h : lookupTable r "dbs" = some ⟨dbsCols, rows⟩) :
    Db.sql [.select ["name", "description", "created_at"] "dbs" none
        (some "created_at")] r =
      (r, .ok
        ⟨(List.insertionSort (rowLe "created_at") rows).map
            (projRow ["name", "description", "created_at"]),
          ["name", "description", "created_at"],
          (List.insertionSort (rowLe "created_at") rows).length, 0⟩) := by
  simp [Db.sql, execScript, execStmt, h, colNames, dbsCols]

theorem rowsHasName_filter_self (rows : List Row) (n : String) :
    rowsHasName (rows.filter
      (fun row => ¬ (List.lookup "name" row = some (.vtext n)))) n = false := by
  rw [rowsHasName, Bool.eq_false_iff]
  intro hmm
  rw [List.any_eq_true] at hmm
  obtain ⟨row, hmem, hyes⟩ := hmm
  rw [List.mem_filter] at hmem
  obtain ⟨_, hno⟩ := hmem
  simp only [decide_eq_true_eq] at hyes
  simp [hyes] at hno

/-! ## Catalog route characterization -/

theorem dbsHas_after_insert (r : EngineState) (rows : List Row) (n : String) (d : Value) :
    dbsHas (setTable { r with clock := r.clock + 1 } "dbs"
      ⟨dbsCols, rows ++ [mkRow dbsCols ["name", "description"] [.vtext n, d] r.clock]⟩)
      n = true := by
  have hname : List.lookup "name"
      (mkRow dbsCols ["name", "description"] [.vtext n, d] r.clock) = some (.vtext n) := by
    refine mkRow_lookup dbsCols _ _ r.clock "name" _ (by simp [colNames, dbsCols]) ?_
    simp [List.zip, List.lookup]
  simp only [dbsHas, dbsRows, lookupTable, setTable]
  rw [lookup_setAssoc_self]
  simp only [Option.map, Option.getD, rowsHasName, List.any_append]
  simp [hname]

theorem createDb_reserved (w : World) (nm : String) (d sv : Option JVal) (ss : List Stmt)
    (hne : nm ≠ "") (hstart : strStartsWith nm "_sor_" = true) :
    handleCreateDb w ⟨some (.jstr nm), d, sv, ss⟩ =
      (w, ⟨400, .jerr "Database name cannot start with _sor_"⟩) := by
  have hval : strFieldInvalid (some (.jstr nm)) = false := by
    simp [strFieldInvalid, truthy, isStr, hne]
  simp [handleCreateDb, hval, jvalStr, hstart]

theorem createDb_fresh (w : World) (nm : String) (d sv : Option JVal) (ss : List Stmt)
    (hne : nm ≠ "") (hstart : strStartsWith nm "_sor_" = false)
    (hsane : RegSane (w.get REGISTRY_DB) = true)
    (hnew : dbsHas (w.get REGISTRY_DB) nm = false) :
    ∃ w', handleCreateDb w ⟨some (.jstr nm), d, sv, ss⟩ = (w', ⟨201, .jokName nm⟩) ∧
      dbsHas (w'.get REGISTRY_DB) nm = true := by
  obtain ⟨r', he, hdbs, _, _, _⟩ := bootstrap_spec (w.get REGISTRY_DB) hsane
  have hval : strFieldInvalid (some (.jstr nm)) = false := by
    simp [strFieldInvalid, truthy, isStr, hne]
  have hsel := sql_select_dbs_name r' (dbsRows (w.get REGISTRY_DB)) nm hdbs
  have hlen : ¬ 0 < ((dbsRows (w.get REGISTRY_DB)).filter
      (fun row => List.lookup "name" row = some (.vtext nm))).length := by
    rw [filter_name_pos]
    simpa [dbsHas] using hnew
  have hins := sql_insert_dbs r' (dbsRows (w.get REGISTRY_DB)) nm (descValue d) hdbs
    (by simpa [dbsHas] using hnew)
  refine ⟨w.set REGISTRY_DB (setTable { r' with clock := r'.clock + 1 } "dbs"
    ⟨dbsCols, dbsRows (w.get REGISTRY_DB) ++
      [mkRow dbsCols ["name", "description"] [.vtext nm, descValue d] r'.clock]⟩),
    ?_, ?_⟩
  · simp only [handleCreateDb, hval, Bool.false_eq_true, if_false, jvalStr,
      Option.getD, hstart, he, hsel, List.length_map]
    rw [if_neg hlen]
    simp only [hins]
  · rw [World.get_set_self]
    exact dbsHas_after_insert r' (dbsRows (w.get REGISTRY_DB)) nm (descValue d)

theorem createDb_exists (w : World) (nm : String) (d sv : Option JVal) (ss : List Stmt)
    (hne : nm ≠ "") (hstart : strStartsWith nm "_sor_" = false)
    (hsane : RegSane (w.get REGISTRY_DB) = true)
    (hhas : dbsHas (w.get REGISTRY_DB) nm = true) :
    ∃ w', handleCreateDb w ⟨some (.jstr nm), d, sv, ss⟩ =
      (w', ⟨409, .jerrName "Database already exists" nm⟩) ∧
      dbsRows (w'.get REGISTRY_DB) = dbsRows (w.get REGISTRY_DB) := by
  obtain ⟨r', he, hdbs, _, _, _⟩ := bootstrap_spec (w.get REGISTRY_DB) hsane
  have hval : strFieldInvalid (some (.jstr nm)) = false := by
    simp [strFieldInvalid, truthy, isStr, hne]
  have hsel := sql_select_dbs_name r' (dbsRows (w.get REGISTRY_DB)) nm hdbs
  have hlen : 0 < ((dbsRows (w.get REGISTRY_DB)).filter
      (fun row => List.lookup "name" row = some (.vtext nm))).length :=
    (filter_name_pos _ _).mpr (by simpa [dbsHas] using hhas)
  refine ⟨w.set REGISTRY_DB r', ?_, ?_⟩
  · simp only [handleCreateDb, hval, Bool.false_eq_true, if_false, jvalStr,
      Option.getD, hstart, he, hsel, List.length_map]
    rw [if_pos hlen]
  · rw [World.get_set_self]
    simp [dbsRows, hdbs]

theorem deleteDb_reserved (w : World) (nm : String)
    (hstart : strStartsWith nm "_sor_" = true) :
    handleDeleteDb w nm = (w, ⟨400, .jerr "Cannot delete system database"⟩) := by
  simp [handleDeleteDb, hstart]

theorem deleteDb_found (w : World) (nm : String)
    (hstart : strStartsWith nm "_sor_" = false)
    (hsane : RegSane (w.get REGISTRY_DB) = true)
    (hhas : dbsHas (w.get REGISTRY_DB) nm = true) :
    ∃ w', handleDeleteDb w nm = (w', ⟨200, .jokName nm⟩) ∧
      dbsHas (w'.get REGISTRY_DB) nm = false := by
  obtain ⟨r', he, hdbs, _, _, _⟩ := bootstrap_spec (w.get REGISTRY_DB) hsane
  have hsel := sql_select_dbs_name r' (dbsRows (w.get REGISTRY_DB)) nm hdbs
  have hlen : ¬ ((dbsRows (w.get REGISTRY_DB)).filter
      (fun row => List.lookup "name" row = some (.vtext nm))).length = 0 := by
    have := (filter_name_pos (dbsRows (w.get REGISTRY_DB)) nm).mpr
      (by simpa [dbsHas] using hhas)
    omega
  have hdel := sql_delete_dbs r' (dbsRows (w.get REGISTRY_DB)) nm hdbs
  refine ⟨w.set REGISTRY_DB (setTable r' "dbs"
    ⟨dbsCols, (dbsRows (w.get REGISTRY_DB)).filter
      (fun row => ¬ (List.lookup "name" row = some (.vtext nm)))⟩), ?_, ?_⟩
  · simp only [handleDeleteDb, hstart, Bool.false_eq_true, if_false, he, hsel,
      List.length_map]
    rw [if_neg hlen]
    simp only [hdel]
  · rw [World.get_set_self]
    simp only [dbsHas, dbsRows, lookupTable, setTable]
    rw [lookup_setAssoc_self]
    simp only [Option.map, Option.getD]
    exact rowsHasName_filter_self _ nm

/-! ## Claim C5 -/

/-- Claim C5: on a sane registry, the catalog routes enforce the
reserved prefix and existence rules: creating or deleting a name that
starts with the reserved prefix answers 400 with the whole world (hence
the catalog) untouched; creating a legal name not yet catalogued
answers 201 and the name enters the catalog; creating a name already
catalogued answers 409 and leaves the catalog rows unchanged; deleting
a catalogued legal name answers 200 and removes it from the catalog. -/
theorem catalog_routes (secret : String) (w : World) (nm : String) (d sv : Option JVal)
    (ss : List Stmt) (hsane : RegSane (w.get REGISTRY_DB) = true) (hne : nm ≠ "") :
    (strStartsWith nm "_sor_" = true →
      fetch secret w ⟨"POST", .dbsRoot, some secret, ⟨some (.jstr nm), d, sv, ss⟩⟩ =
        (w, ⟨400, .jerr "Database name cannot start with _sor_"⟩) ∧
      fetch secret w ⟨"DELETE", .dbsName nm, some secret, noBody⟩ =
        (w, ⟨400, .jerr "Cannot delete system database"⟩)) ∧
    (strStartsWith nm "_sor_" = false →
      (dbsHas (w.get REGISTRY_DB) nm = false →
        ∃ w', fetch secret w ⟨"POST", .dbsRoot, some secret, ⟨some (.jstr nm), d, sv, ss⟩⟩ =
          (w', ⟨201, .jokName nm⟩) ∧ dbsHas (w'.get REGISTRY_DB) nm = true) ∧
      (dbsHas (w.get REGISTRY_DB) nm = true →
        (∃ w', fetch secret w ⟨"POST", .dbsRoot, some secret, ⟨some (.jstr nm), d, sv, ss⟩⟩ =
          (w', ⟨409, .jerrName "Database already exists" nm⟩) ∧
          dbsRows (w'.get REGISTRY_DB) = dbsRows (w.get REGISTRY_DB)) ∧
        (∃ w', fetch secret w ⟨"DELETE", .dbsName nm, some secret, noBody⟩ =
          (w', ⟨200, .jokName nm⟩) ∧ dbsHas (w'.get REGISTRY_DB) nm = false))) := by
  constructor
  · intro hstart
    constructor
    · rw [fetch_auth_ok secret w "POST" .dbsRoot _ (fun _ => RPath.noConfusion)]
      exact createDb_reserved w nm d sv ss hne hstart
    · rw [fetch_auth_ok secret w "DELETE" (.dbsName nm) _ (fun _ => RPath.noConfusion)]
      exact deleteDb_reserved w nm hstart
  · intro hstart
    constructor
    · intro hnew
      rw [fetch_auth_ok secret w "POST" .dbsRoot _ (fun _ => RPath.noConfusion)]
      exact createDb_fresh w nm d sv ss hne hstart hsane hnew
    · intro hhas
      constructor
      · rw [fetch_auth_ok secret w "POST" .dbsRoot _ (fun _ => RPath.noConfusion)]
        exact createDb_exists w nm d sv ss hne hstart hsane hhas
      · rw [fetch_auth_ok secret w "DELETE" (.dbsName nm) _ (fun _ => RPath.noConfusion)]
        exact deleteDb_found w nm hstart hsane hhas

/-- Witness for C5: creating a reserved-prefix name on a fresh world is
refused with 400 and nothing changes. -/
theorem catalog_routes_witness :
    fetch "k" emptyWorld ⟨"POST", .dbsRoot, some "k",
        ⟨some (.jstr "_sor_x"), none, none, []⟩⟩ =
      (emptyWorld, ⟨400, .jerr "Database name cannot start with _sor_"⟩) :=
  ((catalog_routes "k" emptyWorld "_sor_x" none none [] (by decide) (by decide)).1
    (by decide)).1

/-! ## Claim C9 -/

/-- Claim C9: a database name consisting only of whitespace (here a
single space, non-empty and not carrying the reserved prefix) passes
validation on POST /dbs: the route answers 201 and inserts the name
into the catalog. -/
theorem whitespace_name_allowed (secret : String) :
    ∃ w', fetch secret emptyWorld ⟨"POST", .dbsRoot, some secret,
        ⟨some (.jstr " "), none, none, []⟩⟩ = (w', ⟨201, .jokName " "⟩) ∧
      dbsHas (w'.get REGISTRY_DB) " " = true := by
  rw [fetch_auth_ok secret emptyWorld "POST" .dbsRoot _ (fun _ => RPath.noConfusion)]
  exact createDb_fresh emptyWorld " " none none [] (by decide) (by decide)
    (by decide) (by decide)

/-! ## Claim C4 -/

/-- Counterexample to C4 as stated: a POST /db/:name/sql request is
handled to completion (status 200) while no system migration has been
applied to the reserved registry handle — after the request, the
registry storage is still completely empty, so the bootstrap did not
run on this inbound request. -/
theorem bootstrap_not_every_request_cex :
    (fetch "k" emptyWorld ⟨"POST", .dbSql "u", some "k",
        ⟨none, none, some (.jstr "x"), [Stmt.createTab false "t" []]⟩⟩).1.get
      REGISTRY_DB = emptyEngine ∧
    (fetch "k" emptyWorld ⟨"POST", .dbSql "u", some "k",
        ⟨none, none, some (.jstr "x"), [Stmt.createTab false "t" []]⟩⟩).2.status
      = 200 := by
  constructor <;> rfl

/-- Claim C4 (amended): before each registry-scoped operation (the /dbs
routes; shown here for GET /dbs), every entry of the fixed ordered list
SYSTEM_MIGRATIONS is applied by name, through the ordinary migrate
protocol, to the reserved-name registry handle; already-applied system
migrations are silently skipped (a second pass is a no-op) and no
bootstrap error surfaces to the caller (the pass reports no exception
and the request answers 200).  Routes that never consult the registry
(such as POST /db/:name/sql) do not run the bootstrap. -/
theorem bootstrap_registry_scoped (secret : String) (w : World)
    (hsane : RegSane (w.get REGISTRY_DB) = true) :
    ∃ r', ensureSystemMigrations (w.get REGISTRY_DB) = (r', none) ∧
      (∀ m ∈ SYSTEM_MIGRATIONS, ledgerHas r' m.name = true) ∧
      ensureSystemMigrations r' = (r', none) ∧
      fetch secret w ⟨"GET", .dbsRoot, some secret, noBody⟩ =
        (w.set REGISTRY_DB r',
          ⟨200, .jdbs ((List.insertionSort (rowLe "created_at")
              (dbsRows (w.get REGISTRY_DB))).map
            (projRow ["name", "description", "created_at"]))⟩) := by
  obtain ⟨r', he, hdbs, hhas, _, hidem⟩ := bootstrap_spec (w.get REGISTRY_DB) hsane
  refine ⟨r', he, ?_, hidem, ?_⟩
  · intro m hm
    simp only [SYSTEM_MIGRATIONS, List.mem_singleton] at hm
    subst hm
    exact hhas
  · rw [fetch_auth_ok secret w "GET" .dbsRoot _ (fun _ => RPath.noConfusion)]
    have hsel := sql_select_dbs_all r' (dbsRows (w.get REGISTRY_DB)) hdbs
    simp only [route, handleListDbs, he, hsel]

/-- Witness for C4's amended theorem at a fresh world. -/
theorem bootstrap_registry_scoped_witness :
    ∃ r', ensureSystemMigrations (emptyWorld.get REGISTRY_DB) = (r', none) ∧
      (∀ m ∈ SYSTEM_MIGRATIONS, ledgerHas r' m.name = true) ∧
      ensureSystemMigrations r' = (r', none) ∧
      fetch "k" emptyWorld ⟨"GET", .dbsRoot, some "k", noBody⟩ =
        (emptyWorld.set REGISTRY_DB r',
          ⟨200, .jdbs ((List.insertionSort (rowLe "created_at")
              (dbsRows (emptyWorld.get REGISTRY_DB))).map
            (projRow ["name", "description", "created_at"]))⟩) :=
  bootstrap_registry_scoped "k" emptyWorld (by decide)

/-! ## Claim C8 -/

theorem projNA_applied (r : Row) :
    (List.lookup "applied_at" (projRow ["name", "applied_at"] r)).getD .vnull =
      (List.lookup "applied_at" r).getD .vnull := by
  simp [projRow, List.lookup]

/-- Claim C8: on a fresh handle whose ledger table does not yet exist,
listMigrations first creates the ledger table and returns the empty
sequence rather than an error; in general, on a handle with a
well-formed ledger, it returns (without exception) the applied
migrations as {name, applied_at} pairs — a permutation-faithful
projection of the ledger rows — ordered by application time
ascending. -/
theorem listMigrations_ordered (s : EngineState) (hwf : ledgerWF s = true) :
    Db.listMigrations emptyEngine =
      (⟨[("_sor_migrations", ⟨ledgerCols, []⟩)], 0⟩, .ok []) ∧
    ∃ rows, (Db.listMigrations s).2 = .ok rows ∧
      rows.Pairwise (rowLe "applied_at") ∧
      rows.Perm ((ledgerRows s).map (projRow ["name", "applied_at"])) := by
  constructor
  · rfl
  · refine ⟨(List.insertionSort (rowLe "applied_at") (ledgerRows s)).map
      (projRow ["name", "applied_at"]), ?_, ?_, ?_⟩
    · rw [listMigrations_wf s hwf]
    · have hsort : (List.insertionSort (rowLe "applied_at") (ledgerRows s)).Pairwise
          (rowLe "applied_at") :=
        List.sorted_insertionSort (rowLe "applied_at") (ledgerRows s)
      refine hsort.map (projRow ["name", "applied_at"]) ?_
      intro a b hab
      unfold rowLe at hab ⊢
      rw [projNA_applied, projNA_applied]
      exact hab
    · exact (List.perm_insertionSort (rowLe "applied_at") (ledgerRows s)).map _

/-- Witness for C8 at the fresh handle. -/
theorem listMigrations_ordered_witness :
    Db.listMigrations emptyEngine =
      (⟨[("_sor_migrations", ⟨ledgerCols, []⟩)], 0⟩, .ok []) :=
  (listMigrations_ordered emptyEngine rfl).1

/-! ## Claim C10 -/

/-- Claim C10: the reserved-prefix check exists only on the catalog
routes.  The routes POST /db/:name/sql, POST /db/:name/migrate and
GET /db/:name/migrations dispatch to the handle of every name — the
reserved registry name included, names absent from the catalog included
— exactly as the corresponding Db method computes on that handle's
state, with no prefix or existence check; GET /db/:name/schema likewise
reads the schema of any name's handle.  Concretely, an authenticated
POST /db/_sor_registry/sql can create and populate the catalog table
directly, and the injected row is then served by GET /dbs. -/
theorem db_routes_no_guard (secret : String) (w : World) (n : String) (bod : ReqBody) :
    (strFieldInvalid bod.sqlVal = false →
      fetch secret w ⟨"POST", .dbSql n, some secret, bod⟩ =
        (match Db.sql bod.sqlScript (w.get n) with
          | (s', .err e) => (w.set n s', ⟨400, .jerr e⟩)
          | (s', .ok q) => (w.set n s', ⟨200, .jsql q⟩))) ∧
    (strFieldInvalid bod.nameVal = false → strFieldInvalid bod.sqlVal = false →
      fetch secret w ⟨"POST", .dbMigrate n, some secret, bod⟩ =
        (match Db.migrate (jvalStr (bod.nameVal.getD .jnull))
            (jvalStr (bod.sqlVal.getD .jnull)) bod.sqlScript (w.get n) with
          | (s', .error e) => (w.set n s', ⟨500, .jerr e⟩)
          | (s', .ok r) => (w.set n s', ⟨if r.ok then 200 else 400, .jmigrate r⟩))) ∧
    (fetch secret w ⟨"GET", .dbMigrations n, some secret, bod⟩ =
      (match Db.listMigrations (w.get n) with
        | (s', .error e) => (w.set n s', ⟨500, .jerr e⟩)
        | (s', .ok rows) => (w.set n s', ⟨200, .jmigrations rows⟩))) ∧
    ((fetch secret w ⟨"GET", .dbSchema n, some secret, bod⟩).2.status = 200 →
      ∃ desc, (fetch secret w ⟨"GET", .dbSchema n, some secret, bod⟩).2.body =
        .jschema (Db.getSchema (w.get n)) desc) ∧
    (fetch "k" emptyWorld ⟨"POST", .dbSql REGISTRY_DB, some "k",
        ⟨none, none, some (.jstr "ins"),
          [.createTab true "dbs" dbsCols,
           .insert "dbs" ["name", "description"] [.vtext "evil", .vnull]]⟩⟩).2.status
      = 200 ∧
    rowsHasName (rbodyDbsRows
      (fetch "k"
        (fetch "k" emptyWorld ⟨"POST", .dbSql REGISTRY_DB, some "k",
          ⟨none, none, some (.jstr "ins"),
            [.createTab true "dbs" dbsCols,
             .insert "dbs" ["name", "description"] [.vtext "evil", .vnull]]⟩⟩).1
        ⟨"GET", .dbsRoot, some "k", noBody⟩).2.body) "evil" = true := by
  refine ⟨?_, ?_, ?_, ?_, ?_, ?_⟩
  · intro hval
    rw [fetch_auth_ok secret w "POST" (.dbSql n) _ (fun _ => RPath.noConfusion)]
    simp only [route, handleSql, hval, Bool.false_eq_true, if_false]
  · intro hval1 hval2
    rw [fetch_auth_ok secret w "POST" (.dbMigrate n) _ (fun _ => RPath.noConfusion)]
    simp only [route, handleMigrate, hval1, hval2, Bool.false_eq_true, if_false]
  · rw [fetch_auth_ok secret w "GET" (.dbMigrations n) _ (fun _ => RPath.noConfusion)]
    simp only [route, handleListMigrations]
  · rw [fetch_auth_ok secret w "GET" (.dbSchema n) _ (fun _ => RPath.noConfusion)]
    simp only [route, handleSchema]
    rcases hb : ensureSystemMigrations (w.get REGISTRY_DB) with ⟨r1, e1⟩
    cases e1 with
    | some e => simp
    | none =>
      rcases hq : Db.sql [.select ["description"] "dbs"
          (some ("name", .vtext n)) none] r1 with ⟨r2, out⟩
      simp only [hq]
      cases out with
      | err e => simp
      | ok q => intro _; exact ⟨_, rfl⟩
  · rfl
  · rfl

/-- Witness for C10: the migrations route dispatches to the registry
handle itself when the path names the reserved registry database. -/
theorem db_routes_no_guard_witness :
    fetch "k" emptyWorld ⟨"POST", .dbSql REGISTRY_DB, some "k",
        ⟨none, none, some (.jstr "x"), [Stmt.createTab true "dbs" dbsCols]⟩⟩ =
      (emptyWorld.set REGISTRY_DB ⟨[("dbs", ⟨dbsCols, []⟩)], 0⟩,
        ⟨200, .jsql emptyQR⟩) := by
  have h := (db_routes_no_guard "k" emptyWorld REGISTRY_DB
    ⟨none, none, some (.jstr "x"), [Stmt.createTab true "dbs" dbsCols]⟩).1 (by rfl)
  rw [h]
  rfl
